import Mathlib

/-!
Verification of the favorites store (`src/stores/useFavorites.ts`) and the
repository browsing store (`src/stores/repoStore.ts`) of the commit-explorer
application.

The stores are shallowly embedded: the JavaScript `Set<string>` is a
duplicate-free insertion-ordered list, the `Map<string, FavoriteCommit>` is an
insertion-ordered association list with JavaScript `Map` update semantics
(updating an existing key keeps its position), and `localStorage` is a record
of two slots.  Each slot models the combined outcome of `getItem` plus
`JSON.parse`: the key can be absent, hold data that fails to parse into the
expected shape (anything that makes the surrounding `try` block throw), or
hold a well-formed serialized value.  Dates are abstracted by a caller-chosen
`getTime : String → Int` standing for `new Date(s).getTime()`.
-/

/-- Models the `FavoriteCommit` record stored by the favorites store
(fields as built by `buildFavoriteCommitPayload` in `RepoView.vue`). -/
structure FavoriteCommit where
  sha : String
  username : String
  repositoryName : String
  message : String
  date : String
  authorName : String
  authorAvatar : Option String
  html_url : String
deriving DecidableEq, Repr

/-- Models the JavaScript `Set<string>` held in `state.favorites`:
an insertion-ordered list without duplicates. -/
abbrev FavSet := List String

/-- Models `Set.prototype.has`. -/
def FavSet.has (s : FavSet) (x : String) : Bool :=
  decide (x ∈ s)

/-- Models `Set.prototype.add`: appends unless already present. -/
def FavSet.add (s : FavSet) (x : String) : FavSet :=
  if x ∈ s then s else s ++ [x]

/-- Models `Set.prototype.delete`. -/
def FavSet.del (s : FavSet) (x : String) : FavSet :=
  List.filter (fun y => ! decide (y = x)) s

/-- Models `new Set(xs)` for an iterable of strings. -/
def newSet (xs : List String) : FavSet :=
  List.foldl FavSet.add [] xs

/-- Models the JavaScript `Map<string, FavoriteCommit>` held in
`state.favoriteCommits`: an insertion-ordered association list. -/
abbrev FavMap := List (String × FavoriteCommit)

/-- Models `Map.prototype.has`. -/
def FavMap.hasKey : FavMap → String → Bool
  | [], _ => false
  | p :: m, k => decide (p.1 = k) || FavMap.hasKey m k

/-- Models `Map.prototype.get` (returning `undefined` as `none`). -/
def FavMap.get? : FavMap → String → Option FavoriteCommit
  | [], _ => none
  | p :: m, k => if p.1 = k then some p.2 else FavMap.get? m k

/-- Models `Map.prototype.set`: an existing key keeps its position and gets
the new value; a new key is appended. -/
def FavMap.set (m : FavMap) (k : String) (v : FavoriteCommit) : FavMap :=
  if FavMap.hasKey m k then
    List.map (fun p => if p.1 = k then (k, v) else p) m
  else m ++ [(k, v)]

/-- Models `Map.prototype.delete`. -/
def FavMap.del (m : FavMap) (k : String) : FavMap :=
  List.filter (fun p => ! decide (p.1 = k)) m

/-- Models `Map.prototype.values` (insertion order). -/
def FavMap.values (m : FavMap) : List FavoriteCommit :=
  List.map Prod.snd m

/-- Models `new Map(entries)`, which replays `set` over the entries. -/
def newMap (es : List (String × FavoriteCommit)) : FavMap :=
  List.foldl (fun m e => FavMap.set m e.1 e.2) [] es

/-- Models the `FavoritesState` interface of the store. -/
structure FavoritesState where
  favorites : FavSet
  favoriteCommits : FavMap
  initialized : Bool
deriving DecidableEq, Repr

/-- Models the state produced by the store's `state()` factory. -/
def initFavoritesState : FavoritesState :=
  { favorites := [], favoriteCommits := [], initialized := false }

/-- Models the outcome of `localStorage.getItem(key)` followed by parsing
inside the store's `try` block: the key can be absent (`getItem` returned
`null`), malformed (any raw value on which `JSON.parse` or the subsequent
array traversal throws), or hold a well-formed value. -/
inductive Slot (α : Type) where
  | absent : Slot α
  | malformed : Slot α
  | parsed (val : α) : Slot α
deriving DecidableEq, Repr

/-- Models `localStorage` as seen by the store: availability (the
`isBrowserEnvironment` guard) plus the two keys `github-commit-favorites-v2`
and `github-commit-favorites`. -/
structure Storage where
  available : Bool
  v2 : Slot (List FavoriteCommit)
  v1 : Slot (List String)
deriving DecidableEq, Repr

/-- Models the store's `initialize` action: early return when already
initialized or outside a browser; otherwise read the v2 slot, fall back to
the v1 slot, and on any thrown error reset both collections to empty.
The `finally` block always sets `initialized`. -/
def initializeStore (st : FavoritesState) (sto : Storage) : FavoritesState :=
  if st.initialized || !sto.available then
    { st with initialized := true }
  else
    match sto.v2 with
    | Slot.parsed commits =>
        { st with
          favoriteCommits := newMap (List.map (fun c => (c.sha, c)) commits),
          favorites := newSet (List.map (fun c => c.sha) commits),
          initialized := true }
    | Slot.malformed =>
        { favorites := [], favoriteCommits := [], initialized := true }
    | Slot.absent =>
        match sto.v1 with
        | Slot.parsed arr =>
            { st with favorites := newSet arr, initialized := true }
        | Slot.malformed =>
            { favorites := [], favoriteCommits := [], initialized := true }
        | Slot.absent => { st with initialized := true }

/-- Models the store's `persistFavorites` action: a no-op outside a browser,
otherwise write the record values to the v2 slot and the id list to the v1
slot. -/
def persistFavorites (st : FavoritesState) (sto : Storage) : Storage :=
  if !sto.available then sto
  else
    { sto with
      v2 := Slot.parsed (FavMap.values st.favoriteCommits),
      v1 := Slot.parsed st.favorites }

/-- The in-memory effect of `addFavorite`: add the sha to the set and, only
when commit data is supplied (`if (commitData)`), store it in the map. -/
def addFavoriteState (st : FavoritesState) (sha : String)
    (commitData : Option FavoriteCommit) : FavoritesState :=
  { st with
    favorites := FavSet.add st.favorites sha,
    favoriteCommits :=
      match commitData with
      | some c => FavMap.set st.favoriteCommits sha c
      | none => st.favoriteCommits }

/-- Models the store's `addFavorite` action (in-memory update followed by
`persistFavorites`). -/
def addFavorite (st : FavoritesState) (sto : Storage) (sha : String)
    (commitData : Option FavoriteCommit) : FavoritesState × Storage :=
  (addFavoriteState st sha commitData,
   persistFavorites (addFavoriteState st sha commitData) sto)

/-- The in-memory effect of `removeFavorite`: delete the sha from the set and
its record from the map. -/
def removeFavoriteState (st : FavoritesState) (sha : String) : FavoritesState :=
  { st with
    favorites := FavSet.del st.favorites sha,
    favoriteCommits := FavMap.del st.favoriteCommits sha }

/-- Models the store's `removeFavorite` action. -/
def removeFavorite (st : FavoritesState) (sto : Storage) (sha : String) :
    FavoritesState × Storage :=
  (removeFavoriteState st sha, persistFavorites (removeFavoriteState st sha) sto)

/-- Models the store's `toggleFavorite` action: remove when present,
otherwise add with the optional commit data. -/
def toggleFavorite (st : FavoritesState) (sto : Storage) (sha : String)
    (commitData : Option FavoriteCommit) : FavoritesState × Storage :=
  if FavSet.has st.favorites sha then removeFavorite st sto sha
  else addFavorite st sto sha commitData

/-- Models the `isFavorite` getter. -/
def isFavorite (st : FavoritesState) (sha : String) : Bool :=
  FavSet.has st.favorites sha

/-- Models the `getAllFavorites` getter (`Array.from(state.favorites)`). -/
def getAllFavorites (st : FavoritesState) : List String :=
  st.favorites

/-- Models the `sortByDateDescending` comparator, with `getTime` standing for
`new Date(s).getTime()`. -/
def sortByDateDescending (getTime : String → Int) (a b : FavoriteCommit) : Int :=
  getTime b.date - getTime a.date

/-- Models the `getAllFavoriteCommits` getter: the map's values sorted with
`sortByDateDescending` by a stable sort (`Array.prototype.sort`). -/
def getAllFavoriteCommits (getTime : String → Int) (st : FavoritesState) :
    List FavoriteCommit :=
  List.insertionSort (fun a b => sortByDateDescending getTime a b ≤ 0)
    (FavMap.values st.favoriteCommits)

/-- Models the `getFavoriteCommit` getter. -/
def getFavoriteCommit (st : FavoritesState) (sha : String) :
    Option FavoriteCommit :=
  FavMap.get? st.favoriteCommits sha

/-- One user-level mutation of the favorites store. -/
inductive Mutation where
  | add (sha : String) (data : Option FavoriteCommit) : Mutation
  | remove (sha : String) : Mutation
  | toggle (sha : String) (data : Option FavoriteCommit) : Mutation
deriving DecidableEq, Repr

/-- Runs one mutation against the paired in-memory state and storage. -/
def applyMutation (p : FavoritesState × Storage) (m : Mutation) :
    FavoritesState × Storage :=
  match m with
  | Mutation.add sha d => addFavorite p.1 p.2 sha d
  | Mutation.remove sha => removeFavorite p.1 p.2 sha
  | Mutation.toggle sha d => toggleFavorite p.1 p.2 sha d

/-- The in-memory effect of one mutation, independent of storage. -/
def applyState (st : FavoritesState) : Mutation → FavoritesState
  | Mutation.add sha d => addFavoriteState st sha d
  | Mutation.remove sha => removeFavoriteState st sha
  | Mutation.toggle sha d =>
      if FavSet.has st.favorites sha then removeFavoriteState st sha
      else addFavoriteState st sha d

/-- Runs a sequence of mutations. -/
def runMutations (p : FavoritesState × Storage) (muts : List Mutation) :
    FavoritesState × Storage :=
  List.foldl applyMutation p muts

/-- Models the `GitHubUser` interface of `types/github.ts`. -/
structure GitHubUser where
  login : String
  avatar_url : String
  html_url : String
  name : Option String
  bio : Option String
  followers : Nat
  following : Nat
  public_repos : Nat
deriving DecidableEq, Repr

/-- Models the `owner` object nested in `GitHubRepository`. -/
structure RepoOwner where
  login : String
  avatar_url : String
  html_url : String
deriving DecidableEq, Repr

/-- Models the `GitHubRepository` interface of `types/github.ts`. -/
structure GitHubRepository where
  id : Int
  name : String
  full_name : String
  owner : RepoOwner
  description : Option String
  html_url : String
  stargazers_count : Nat
  forks_count : Nat
  language : Option String
  created_at : String
  updated_at : String
  pushed_at : String
  default_branch : String
deriving DecidableEq, Repr

/-- Models the author and committer objects nested under `commit`. -/
structure CommitPersonInfo where
  name : String
  email : String
  date : String
deriving DecidableEq, Repr

/-- Models the top-level `author` and `committer` user references. -/
structure CommitUserRef where
  login : String
  avatar_url : String
  html_url : String
deriving DecidableEq, Repr

/-- Models a parent reference of a commit. -/
structure CommitParentRef where
  sha : String
  html_url : String
deriving DecidableEq, Repr

/-- Models the nested `commit` object of `GitHubCommit`. -/
structure CommitContent where
  message : String
  author : CommitPersonInfo
  committer : CommitPersonInfo
deriving DecidableEq, Repr

/-- Models the `GitHubCommit` interface of `types/github.ts`. -/
structure GitHubCommit where
  sha : String
  commit : CommitContent
  author : Option CommitUserRef
  committer : Option CommitUserRef
  html_url : String
  parents : List CommitParentRef
deriving DecidableEq, Repr

/-- Models the `stats` object of `GitHubCommitDetail`. -/
structure CommitStats where
  total : Nat
  additions : Nat
  deletions : Nat
deriving DecidableEq, Repr

/-- Models one entry of the `files` array of `GitHubCommitDetail`. -/
structure CommitFile where
  filename : String
  status : String
  additions : Nat
  deletions : Nat
  changes : Nat
  patch : Option String
deriving DecidableEq, Repr

/-- Models the `GitHubCommitDetail` interface of `types/github.ts`. -/
structure GitHubCommitDetail extends GitHubCommit where
  stats : CommitStats
  files : List CommitFile
deriving DecidableEq, Repr

/-- Models the `RepoViewState` interface of `repoStore.ts`. -/
structure RepoViewState where
  username : String
  user : Option GitHubUser
  repositories : List GitHubRepository
  searchQuery : String
  selectedRepo : Option GitHubRepository
  commits : List GitHubCommit
  selectedCommit : Option GitHubCommitDetail
  loading : Bool
  loadingCommitDetails : Bool
  error : Option String
  initialized : Bool
deriving DecidableEq, Repr

/-- Models the state produced by the repo store's `state()` factory. -/
def initRepoViewState : RepoViewState :=
  { username := "", user := none, repositories := [], searchQuery := "",
    selectedRepo := none, commits := [], selectedCommit := none,
    loading := false, loadingCommitDetails := false, error := none,
    initialized := false }

/-- Models the `selectRepository` action: set the selection and
unconditionally clear the selected commit and the commit list. -/
def selectRepository (st : RepoViewState) (repo : Option GitHubRepository) :
    RepoViewState :=
  { st with selectedRepo := repo, selectedCommit := none, commits := [] }

/-- Models the `selectCommit` action. The commit-detail fetch is abstracted
by an oracle `api username repoName sha` returning either the detail or the
error message the store would extract from the thrown error. The returned
flag records whether a fetch was issued; when no repository is selected the
action returns immediately without touching the state. -/
def selectCommit (st : RepoViewState) (sha : String)
    (api : String → String → String → Except String GitHubCommitDetail) :
    RepoViewState × Bool :=
  match st.selectedRepo with
  | none => (st, false)
  | some repo =>
      match api st.username repo.name sha with
      | Except.ok detail =>
          ({ st with error := none, selectedCommit := some detail,
                     loadingCommitDetails := false }, true)
      | Except.error msg =>
          ({ st with error := some msg, loadingCommitDetails := false }, true)

theorem FavSet.mem_add {s : FavSet} {x y : String} (h : x ∈ s ∨ x = y) :
    x ∈ FavSet.add s y := by
  unfold FavSet.add
  by_cases hy : y ∈ s
  · simp only [if_pos hy]
    rcases h with h | h
    · exact h
    · exact h ▸ hy
  · simp only [if_neg hy, List.mem_append, List.mem_singleton]
    exact h

theorem FavSet.has_add (s : FavSet) (x y : String) :
    FavSet.has (FavSet.add s x) y = (FavSet.has s y || decide (y = x)) := by
  unfold FavSet.add FavSet.has
  by_cases hx : x ∈ s <;> by_cases hyx : y = x <;>
    simp [hx, hyx, List.mem_append]

theorem FavSet.has_del (s : FavSet) (x y : String) :
    FavSet.has (FavSet.del s x) y = (FavSet.has s y && ! decide (y = x)) := by
  unfold FavSet.del FavSet.has
  by_cases hyx : y = x <;> simp [hyx, List.mem_filter]

theorem FavMap.get?_eq_none_iff (m : FavMap) (k : String) :
    FavMap.get? m k = none ↔ FavMap.hasKey m k = false := by
  induction m with
  | nil => simp [FavMap.get?, FavMap.hasKey]
  | cons p m ih =>
      by_cases h : p.1 = k <;> simp [FavMap.get?, FavMap.hasKey, h, ih]

theorem FavMap.get?_append (m₁ m₂ : FavMap) (k : String) :
    FavMap.get? (m₁ ++ m₂) k =
      match FavMap.get? m₁ k with
      | some v => some v
      | none => FavMap.get? m₂ k := by
  induction m₁ with
  | nil => simp [FavMap.get?]
  | cons p m ih =>
      by_cases h : p.1 = k <;> simp [FavMap.get?, h, ih]

theorem FavMap.get?_mapReplace (m : FavMap) (k k' : String) (v : FavoriteCommit) :
    FavMap.get? (List.map (fun p => if p.1 = k then (k, v) else p) m) k' =
      if k' = k then (if FavMap.hasKey m k then some v else none)
      else FavMap.get? m k' := by
  induction m with
  | nil => simp [FavMap.get?, FavMap.hasKey]
  | cons p m ih =>
      by_cases hk : k' = k
      · subst hk
        by_cases hp : p.1 = k'
        · simp [FavMap.get?, FavMap.hasKey, hp, ih]
        · simp [FavMap.get?, FavMap.hasKey, hp, ih]
      · by_cases hp : p.1 = k
        · have hp' : ¬ p.1 = k' := fun h => hk (by rw [← h, hp])
          have hkk : ¬ k = k' := fun h => hk h.symm
          simp [FavMap.get?, hp, hp', hkk, hk, ih]
        · by_cases hp' : p.1 = k' <;>
            simp [FavMap.get?, FavMap.hasKey, hp, hk, hp', ih]

theorem FavMap.get?_set (m : FavMap) (k : String) (v : FavoriteCommit)
    (k' : String) :
    FavMap.get? (FavMap.set m k v) k' =
      if k' = k then some v else FavMap.get? m k' := by
  unfold FavMap.set
  by_cases hhas : FavMap.hasKey m k
  · rw [if_pos hhas, FavMap.get?_mapReplace, hhas]
    simp
  · rw [if_neg hhas, FavMap.get?_append]
    by_cases hk : k' = k
    · subst hk
      have hnone : FavMap.get? m k' = none := by
        rw [FavMap.get?_eq_none_iff, Bool.eq_false_iff]
        exact hhas
      simp [hnone, FavMap.get?]
    · have hkk : ¬ k = k' := fun h => hk h.symm
      cases hget : FavMap.get? m k' <;> simp [hget, hk, hkk, FavMap.get?]

theorem FavMap.get?_del (m : FavMap) (k k' : String) :
    FavMap.get? (FavMap.del m k) k' =
      if k' = k then none else FavMap.get? m k' := by
  induction m with
  | nil => simp [FavMap.del, FavMap.get?]
  | cons p m ih =>
      unfold FavMap.del at ih ⊢
      rw [List.filter_cons]
      by_cases hp : p.1 = k
      · rw [if_neg (by simp [hp])]
        by_cases hk : k' = k
        · subst hk
          rw [ih, if_pos rfl, if_pos rfl]
        · have hp' : ¬ p.1 = k' := fun h => hk (by rw [← h, hp])
          rw [ih, if_neg hk, if_neg hk]
          simp [FavMap.get?, hp']
      · rw [if_pos (by simp [hp])]
        by_cases hp' : p.1 = k'
        · have hk : ¬ k' = k := fun h => hp (by rw [hp', h])
          simp [FavMap.get?, hp', hk]
        · simp [FavMap.get?, hp', ih]

theorem FavMap.mem_set {p : String × FavoriteCommit} {m : FavMap} {k : String}
    {v : FavoriteCommit} (h : p ∈ FavMap.set m k v) : p ∈ m ∨ p = (k, v) := by
  unfold FavMap.set at h
  by_cases hhas : FavMap.hasKey m k
  · rw [if_pos hhas] at h
    rcases List.mem_map.1 h with ⟨q, hq, hfq⟩
    by_cases hqk : q.1 = k
    · right
      rw [← hfq, if_pos hqk]
    · left
      rw [← hfq, if_neg hqk]
      exact hq
  · rw [if_neg hhas, List.mem_append, List.mem_singleton] at h
    exact h

theorem FavMap.mem_del {p : String × FavoriteCommit} {m : FavMap} {k : String}
    (h : p ∈ FavMap.del m k) : p ∈ m ∧ ¬ p.1 = k := by
  unfold FavMap.del at h
  rcases List.mem_filter.1 h with ⟨hm, hpred⟩
  refine ⟨hm, ?_⟩
  simpa using hpred

theorem FavMap.hasKey_append (m₁ m₂ : FavMap) (k : String) :
    FavMap.hasKey (m₁ ++ m₂) k = (FavMap.hasKey m₁ k || FavMap.hasKey m₂ k) := by
  induction m₁ with
  | nil => simp [FavMap.hasKey]
  | cons p m ih => simp [FavMap.hasKey, ih, Bool.or_assoc]

theorem newSet_has_aux (xs : List String) (acc : FavSet) (x : String)
    (h : x ∈ acc ∨ x ∈ xs) : FavSet.has (List.foldl FavSet.add acc xs) x = true := by
  induction xs generalizing acc with
  | nil =>
      rcases h with h | h
      · simpa [FavSet.has] using h
      · cases h
  | cons y ys ih =>
      rw [List.foldl_cons]
      refine ih (FavSet.add acc y) ?_
      rcases h with h | h
      · exact Or.inl (FavSet.mem_add (Or.inl h))
      · rcases List.mem_cons.1 h with h | h
        · exact Or.inl (FavSet.mem_add (Or.inr h))
        · exact Or.inr h

theorem newSet_has_of_mem {xs : List String} {x : String} (h : x ∈ xs) :
    FavSet.has (newSet xs) x = true :=
  newSet_has_aux xs [] x (Or.inr h)

theorem newMap_keys_aux (es : List (String × FavoriteCommit)) (acc : FavMap)
    (p : String × FavoriteCommit)
    (h : p ∈ List.foldl (fun m e => FavMap.set m e.1 e.2) acc es) :
    p ∈ acc ∨ p.1 ∈ List.map Prod.fst es := by
  induction es generalizing acc with
  | nil => exact Or.inl h
  | cons e es ih =>
      rw [List.foldl_cons] at h
      rcases ih (FavMap.set acc e.1 e.2) h with h | h
      · rcases FavMap.mem_set h with h | h
        · exact Or.inl h
        · right
          rw [h]
          simp
      · right
        simp only [List.map_cons, List.mem_cons]
        exact Or.inr h

theorem newMap_keys_sub {es : List (String × FavoriteCommit)}
    {p : String × FavoriteCommit} (h : p ∈ newMap es) :
    p.1 ∈ List.map Prod.fst es := by
  rcases newMap_keys_aux es [] p h with h | h
  · cases h
  · exact h

theorem newSet_eq_aux (xs : List String) (acc : FavSet)
    (hdisj : ∀ x ∈ xs, x ∉ acc) (hnd : xs.Nodup) :
    List.foldl FavSet.add acc xs = acc ++ xs := by
  induction xs generalizing acc with
  | nil => simp
  | cons y ys ih =>
      rw [List.foldl_cons]
      have hy : y ∉ acc := hdisj y (List.mem_cons_self y ys)
      have hadd : FavSet.add acc y = acc ++ [y] := by
        unfold FavSet.add
        rw [if_neg hy]
      rw [hadd, ih (acc ++ [y])]
      · simp
      · intro x hx
        rw [List.mem_append, List.mem_singleton]
        rintro (hxa | hxy)
        · exact hdisj x (List.mem_cons_of_mem y hx) hxa
        · exact (List.nodup_cons.1 hnd).1 (hxy ▸ hx)
      · exact (List.nodup_cons.1 hnd).2

theorem newSet_eq_of_nodup {xs : List String} (hnd : xs.Nodup) :
    newSet xs = xs := by
  unfold newSet
  rw [newSet_eq_aux xs [] (fun x _ h => (List.not_mem_nil x) h) hnd]
  simp

theorem hasKey_eq_false_of_not_mem {m : FavMap} {k : String}
    (h : k ∉ List.map Prod.fst m) : FavMap.hasKey m k = false := by
  induction m with
  | nil => rfl
  | cons p m ih =>
      simp only [List.map_cons, List.mem_cons] at h
      push_neg at h
      have hp : ¬ p.1 = k := fun hc => h.1 hc.symm
      simp [FavMap.hasKey, hp, ih h.2]

theorem newMap_eq_aux (es : List (String × FavoriteCommit)) (acc : FavMap)
    (hdisj : ∀ p ∈ es, FavMap.hasKey acc p.1 = false)
    (hnd : (List.map Prod.fst es).Nodup) :
    List.foldl (fun m e => FavMap.set m e.1 e.2) acc es = acc ++ es := by
  induction es generalizing acc with
  | nil => simp
  | cons e es ih =>
      rw [List.foldl_cons]
      have he : FavMap.hasKey acc e.1 = false :=
        hdisj e (List.mem_cons_self e es)
      have hset : FavMap.set acc e.1 e.2 = acc ++ [(e.1, e.2)] := by
        unfold FavMap.set
        rw [if_neg (by rw [he]; exact Bool.false_ne_true)]
      rw [List.map_cons, List.nodup_cons] at hnd
      rw [hset, ih (acc ++ [(e.1, e.2)])]
      · simp
      · intro p hp
        rw [FavMap.hasKey_append, Bool.or_eq_false_iff]
        refine ⟨hdisj p (List.mem_cons_of_mem e hp), ?_⟩
        have hne : ¬ e.1 = p.1 := by
          intro hc
          exact hnd.1 (hc ▸ List.mem_map_of_mem Prod.fst hp)
        simp [FavMap.hasKey, hne]
      · exact hnd.2

theorem newMap_eq_of_nodup_keys {m : FavMap}
    (hnd : (List.map Prod.fst m).Nodup) : newMap m = m := by
  unfold newMap
  rw [newMap_eq_aux m [] (fun p _ => rfl) hnd]
  simp

theorem applyMutation_fst (st : FavoritesState) (sto : Storage) (m : Mutation) :
    (applyMutation (st, sto) m).1 = applyState st m := by
  cases m with
  | add sha d => rfl
  | remove sha => rfl
  | toggle sha d =>
      show (toggleFavorite st sto sha d).1 = _
      unfold toggleFavorite applyState
      by_cases h : FavSet.has st.favorites sha <;> simp [h, addFavorite, removeFavorite]

theorem applyMutation_snd (st : FavoritesState) (sto : Storage) (m : Mutation) :
    (applyMutation (st, sto) m).2 =
      persistFavorites (applyState st m) sto := by
  cases m with
  | add sha d => rfl
  | remove sha => rfl
  | toggle sha d =>
      show (toggleFavorite st sto sha d).2 = _
      unfold toggleFavorite applyState
      by_cases h : FavSet.has st.favorites sha <;> simp [h, addFavorite, removeFavorite]

/-- Storage that is available but has never been written. -/
def emptyStorage : Storage :=
  { available := true, v2 := Slot.absent, v1 := Slot.absent }

/-- Sample favorite record used by concrete witnesses (the scenario record of
the specification). -/
def sampleRecord : FavoriteCommit :=
  { sha := "abc123", username := "octo", repositoryName := "Hello-World",
    message := "Fix bug", date := "2024-01-01T00:00:00Z",
    authorName := "Octo Cat", authorAvatar := none,
    html_url := "https://example/commit/abc123" }

/-- C8: selecting a repository (including re-selecting or selecting null)
unconditionally resets the selected commit to none and the commit list to
empty, so no commit data of a previously selected repository survives. -/
theorem selectRepository_clears_commit_state (st : RepoViewState)
    (repo : Option GitHubRepository) :
    (selectRepository st repo).selectedCommit = none ∧
    (selectRepository st repo).commits = [] ∧
    (selectRepository st repo).selectedRepo = repo :=
  ⟨rfl, rfl, rfl⟩

/-- C10: when no repository is selected, `selectCommit` is a complete no-op:
the state (including error slot and loading flags) is returned unchanged and
no fetch is issued. -/
theorem selectCommit_noop_without_repo (st : RepoViewState) (sha : String)
    (api : String → String → String → Except String GitHubCommitDetail)
    (h : st.selectedRepo = none) :
    selectCommit st sha api = (st, false) := by
  unfold selectCommit
  rw [h]

theorem selectCommit_noop_without_repo_witness :
    selectCommit initRepoViewState "abc123"
      (fun _ _ _ => Except.error "Failed to fetch commit details") =
      (initRepoViewState, false) :=
  selectCommit_noop_without_repo initRepoViewState "abc123"
    (fun _ _ _ => Except.error "Failed to fetch commit details") rfl

/-- C9: when an id already maps to a record, a record-less `addFavorite` of
that id leaves the record mapping unchanged (the id still maps to the same
record) and keeps the id in the id set. -/
theorem addFavorite_recordless_frame (st : FavoritesState) (sto : Storage)
    (sha : String) (r : FavoriteCommit)
    (h : FavMap.get? st.favoriteCommits sha = some r) :
    ((addFavorite st sto sha none).1).favoriteCommits = st.favoriteCommits ∧
    FavMap.get? ((addFavorite st sto sha none).1).favoriteCommits sha = some r ∧
    FavSet.has ((addFavorite st sto sha none).1).favorites sha = true := by
  refine ⟨rfl, h, ?_⟩
  show FavSet.has (FavSet.add st.favorites sha) sha = true
  rw [FavSet.has_add]
  simp

theorem addFavorite_recordless_frame_witness :
    FavMap.get?
        ({ favorites := ["abc123"],
           favoriteCommits := [("abc123", sampleRecord)],
           initialized := true } : FavoritesState).favoriteCommits "abc123" =
      some sampleRecord ∧
    ((addFavorite
        { favorites := ["abc123"],
          favoriteCommits := [("abc123", sampleRecord)],
          initialized := true } emptyStorage "abc123" none).1).favoriteCommits =
      [("abc123", sampleRecord)] ∧
    FavMap.get?
        ((addFavorite
          { favorites := ["abc123"],
            favoriteCommits := [("abc123", sampleRecord)],
            initialized := true } emptyStorage "abc123" none).1).favoriteCommits
        "abc123" = some sampleRecord ∧
    FavSet.has
        ((addFavorite
          { favorites := ["abc123"],
            favoriteCommits := [("abc123", sampleRecord)],
            initialized := true } emptyStorage "abc123" none).1).favorites
        "abc123" = true := by
  have h := addFavorite_recordless_frame
    { favorites := ["abc123"],
      favoriteCommits := [("abc123", sampleRecord)],
      initialized := true } emptyStorage "abc123" sampleRecord (by decide)
  exact ⟨by decide, h.1, h.2.1, h.2.2⟩

/-- C6: with the storage collaborator unavailable, `initialize` only marks
the store initialized, every mutation performs its pure in-memory update and
leaves storage untouched, and the getters keep reflecting the in-memory
index. -/
theorem favorites_ops_pure_without_storage (st : FavoritesState)
    (sto : Storage) (m : Mutation) (h : sto.available = false) :
    initializeStore st sto = { st with initialized := true } ∧
    applyMutation (st, sto) m = (applyState st m, sto) ∧
    (∀ sha data, isFavorite (addFavorite st sto sha data).1 sha = true) ∧
    (∀ sha, isFavorite (removeFavorite st sto sha).1 sha = false) := by
  have hp : ∀ st' : FavoritesState, persistFavorites st' sto = sto := by
    intro st'
    unfold persistFavorites
    rw [h]
    simp
  refine ⟨?_, ?_, ?_, ?_⟩
  · unfold initializeStore
    rw [h]
    simp
  · have h1 := applyMutation_fst st sto m
    have h2 := (applyMutation_snd st sto m).trans (hp (applyState st m))
    exact Prod.ext h1 h2
  · intro sha data
    show FavSet.has (FavSet.add st.favorites sha) sha = true
    rw [FavSet.has_add]
    simp
  · intro sha
    show FavSet.has (FavSet.del st.favorites sha) sha = false
    rw [FavSet.has_del]
    simp

theorem favorites_ops_pure_without_storage_witness :
    initializeStore initFavoritesState
        { available := false, v2 := Slot.absent, v1 := Slot.absent } =
      { initFavoritesState with initialized := true } ∧
    applyMutation (initFavoritesState,
        { available := false, v2 := Slot.absent, v1 := Slot.absent })
        (Mutation.add "abc123" none) =
      (applyState initFavoritesState (Mutation.add "abc123" none),
        { available := false, v2 := Slot.absent, v1 := Slot.absent }) ∧
    (∀ sha data,
      isFavorite (addFavorite initFavoritesState
        { available := false, v2 := Slot.absent, v1 := Slot.absent }
        sha data).1 sha = true) ∧
    (∀ sha,
      isFavorite (removeFavorite initFavoritesState
        { available := false, v2 := Slot.absent, v1 := Slot.absent }
        sha).1 sha = false) :=
  favorites_ops_pure_without_storage initFavoritesState
    { available := false, v2 := Slot.absent, v1 := Slot.absent }
    (Mutation.add "abc123" none) rfl

/-- C3 counterexample: with a malformed rich slot next to a valid legacy
list, initialization does not populate the id set from the legacy list - the
catch handler resets everything before the legacy slot is ever read. -/
theorem malformed_rich_slot_counterexample :
    FavSet.has (initializeStore initFavoritesState
      { available := true, v2 := Slot.malformed,
        v1 := Slot.parsed ["abc123"] }).favorites "abc123" = false := by
  decide

/-- C3 amended: a malformed rich (v2) slot makes initialization reset the
whole index to empty; the legacy slot is not consulted, whatever it holds. -/
theorem initialize_malformed_rich_resets (st : FavoritesState) (sto : Storage)
    (hini : st.initialized = false) (hav : sto.available = true)
    (hv2 : sto.v2 = Slot.malformed) :
    (initializeStore st sto).favorites = [] ∧
    (initializeStore st sto).favoriteCommits = [] := by
  unfold initializeStore
  rw [hini, hav, hv2]
  simp

theorem initialize_malformed_rich_resets_witness :
    (initializeStore initFavoritesState
      { available := true, v2 := Slot.malformed,
        v1 := Slot.parsed ["abc123"] }).favorites = [] ∧
    (initializeStore initFavoritesState
      { available := true, v2 := Slot.malformed,
        v1 := Slot.parsed ["abc123"] }).favoriteCommits = [] :=
  initialize_malformed_rich_resets initFavoritesState
    { available := true, v2 := Slot.malformed, v1 := Slot.parsed ["abc123"] }
    rfl rfl rfl

/-- C1 counterexample: an id favorited without a record survives in memory
but is lost when a fresh store re-initializes from the persisted state,
because the persisted rich slot (which only has record-bearing ids) takes
precedence over the legacy id list. -/
theorem reinit_loses_recordless_id_counterexample :
    isFavorite
      (addFavorite (initializeStore initFavoritesState emptyStorage)
        emptyStorage "abc123" none).1 "abc123" = true ∧
    isFavorite
      (initializeStore initFavoritesState
        (addFavorite (initializeStore initFavoritesState emptyStorage)
          emptyStorage "abc123" none).2) "abc123" = false := by
  decide

theorem map_sha_pair (m : FavMap) (hcoh : ∀ p ∈ m, p.2.sha = p.1) :
    List.map (fun c => (c.sha, c)) (FavMap.values m) = m := by
  unfold FavMap.values
  induction m with
  | nil => rfl
  | cons p m ih =>
      simp only [List.map_cons, List.cons.injEq]
      constructor
      · have h := hcoh p (List.mem_cons_self p m)
        exact Prod.ext h rfl
      · exact ih (fun q hq => hcoh q (List.mem_cons_of_mem p hq))

theorem map_sha_values (m : FavMap) (hcoh : ∀ p ∈ m, p.2.sha = p.1) :
    List.map (fun c => c.sha) (FavMap.values m) = List.map Prod.fst m := by
  unfold FavMap.values
  induction m with
  | nil => rfl
  | cons p m ih =>
      simp only [List.map_cons, List.cons.injEq]
      exact ⟨hcoh p (List.mem_cons_self p m),
        ih (fun q hq => hcoh q (List.mem_cons_of_mem p hq))⟩

theorem persist_then_reinit (st : FavoritesState) (sto : Storage)
    (hav : sto.available = true)
    (hnd : (List.map Prod.fst st.favoriteCommits).Nodup)
    (hcoh : ∀ p ∈ st.favoriteCommits, p.2.sha = p.1) :
    initializeStore initFavoritesState (persistFavorites st sto) =
      { favorites := List.map Prod.fst st.favoriteCommits,
        favoriteCommits := st.favoriteCommits, initialized := true } := by
  obtain ⟨av, s2, s1⟩ := sto
  simp only [Storage.available] at hav
  subst hav
  show initializeStore initFavoritesState
      { available := true, v2 := Slot.parsed (FavMap.values st.favoriteCommits),
        v1 := Slot.parsed st.favorites } = _
  unfold initializeStore
  simp only [initFavoritesState, Bool.false_or, Bool.not_true, if_false]
  rw [map_sha_pair st.favoriteCommits hcoh, map_sha_values st.favoriteCommits hcoh,
    newMap_eq_of_nodup_keys hnd, newSet_eq_of_nodup hnd]
  simp

/-- C1 amended: after any mutation with storage available, re-initializing a
fresh store from the persisted state reproduces the record mapping exactly,
and the id set becomes precisely the record-bearing ids - ids without cached
records are lost (given that cached records are keyed by their own id and the
map keys are duplicate-free, as every real call site guarantees). -/
theorem reinit_after_mutation_keeps_records (st : FavoritesState)
    (sto : Storage) (m : Mutation) (hav : sto.available = true)
    (hnd : (List.map Prod.fst (applyState st m).favoriteCommits).Nodup)
    (hcoh : ∀ p ∈ (applyState st m).favoriteCommits, p.2.sha = p.1) :
    (initializeStore initFavoritesState
        (applyMutation (st, sto) m).2).favoriteCommits =
      (applyState st m).favoriteCommits ∧
    (initializeStore initFavoritesState (applyMutation (st, sto) m).2).favorites =
      List.map Prod.fst (applyState st m).favoriteCommits := by
  rw [applyMutation_snd, persist_then_reinit (applyState st m) sto hav hnd hcoh]
  exact ⟨rfl, rfl⟩

theorem reinit_after_mutation_keeps_records_witness :
    (initializeStore initFavoritesState
        (applyMutation (initFavoritesState, emptyStorage)
          (Mutation.add "abc123" (some sampleRecord))).2).favoriteCommits =
      (applyState initFavoritesState
        (Mutation.add "abc123" (some sampleRecord))).favoriteCommits ∧
    (initializeStore initFavoritesState
        (applyMutation (initFavoritesState, emptyStorage)
          (Mutation.add "abc123" (some sampleRecord))).2).favorites =
      List.map Prod.fst (applyState initFavoritesState
        (Mutation.add "abc123" (some sampleRecord))).favoriteCommits :=
  reinit_after_mutation_keeps_records initFavoritesState emptyStorage
    (Mutation.add "abc123" (some sampleRecord)) rfl (by decide) (by decide)

theorem inv_addFavoriteState (st : FavoritesState) (sha : String)
    (d : Option FavoriteCommit)
    (h : ∀ p ∈ st.favoriteCommits, FavSet.has st.favorites p.1 = true) :
    ∀ p ∈ (addFavoriteState st sha d).favoriteCommits,
      FavSet.has (addFavoriteState st sha d).favorites p.1 = true := by
  intro p hp
  show FavSet.has (FavSet.add st.favorites sha) p.1 = true
  rw [FavSet.has_add]
  cases d with
  | none =>
      rw [h p hp]
      simp
  | some c =>
      rcases FavMap.mem_set hp with hm | he
      · rw [h p hm]
        simp
      · rw [he]
        simp

theorem inv_removeFavoriteState (st : FavoritesState) (sha : String)
    (h : ∀ p ∈ st.favoriteCommits, FavSet.has st.favorites p.1 = true) :
    ∀ p ∈ (removeFavoriteState st sha).favoriteCommits,
      FavSet.has (removeFavoriteState st sha).favorites p.1 = true := by
  intro p hp
  show FavSet.has (FavSet.del st.favorites sha) p.1 = true
  rcases FavMap.mem_del hp with ⟨hm, hne⟩
  rw [FavSet.has_del, h p hm]
  simp [hne]

theorem inv_applyState (st : FavoritesState) (m : Mutation)
    (h : ∀ p ∈ st.favoriteCommits, FavSet.has st.favorites p.1 = true) :
    ∀ p ∈ (applyState st m).favoriteCommits,
      FavSet.has (applyState st m).favorites p.1 = true := by
  cases m with
  | add sha d => exact inv_addFavoriteState st sha d h
  | remove sha => exact inv_removeFavoriteState st sha h
  | toggle sha d =>
      simp only [applyState]
      by_cases hc : FavSet.has st.favorites sha = true
      · rw [if_pos hc]
        exact inv_removeFavoriteState st sha h
      · rw [if_neg hc]
        exact inv_addFavoriteState st sha d h

theorem inv_initialize_empty (sto : Storage) :
    ∀ p ∈ (initializeStore initFavoritesState sto).favoriteCommits,
      FavSet.has (initializeStore initFavoritesState sto).favorites p.1 = true := by
  obtain ⟨av, s2, s1⟩ := sto
  cases av with
  | false =>
      intro p hp
      simp [initializeStore, initFavoritesState] at hp
  | true =>
      cases s2 with
      | absent =>
          cases s1 <;> intro p hp <;>
            simp [initializeStore, initFavoritesState] at hp
      | malformed =>
          intro p hp
          simp [initializeStore, initFavoritesState] at hp
      | parsed commits =>
          intro p hp
          simp only [initializeStore, initFavoritesState, Bool.not_true,
            Bool.or_false, Bool.false_or, if_false] at hp ⊢
          have hk := newMap_keys_sub hp
          simp only [List.map_map, Function.comp] at hk
          exact newSet_has_of_mem hk

theorem inv_run (muts : List Mutation) (p : FavoritesState × Storage)
    (h : ∀ q ∈ p.1.favoriteCommits, FavSet.has p.1.favorites q.1 = true) :
    ∀ q ∈ (runMutations p muts).1.favoriteCommits,
      FavSet.has (runMutations p muts).1.favorites q.1 = true := by
  induction muts generalizing p with
  | nil => exact h
  | cons m ms ih =>
      obtain ⟨st, sto⟩ := p
      show ∀ q ∈ (runMutations (applyMutation (st, sto) m) ms).1.favoriteCommits, _
      refine ih (applyMutation (st, sto) m) ?_
      rw [applyMutation_fst]
      exact inv_applyState st m h

/-- C2: in every state reachable by initialization followed by any sequence
of add/remove/toggle mutations, every key of the record mapping is a member
of the id set (the id set is a superset of the mapping's key set). -/
theorem favorites_superset_invariant (sto : Storage) (muts : List Mutation) :
    List.all
      (runMutations (initializeStore initFavoritesState sto, sto) muts).1.favoriteCommits
      (fun p => FavSet.has
        (runMutations (initializeStore initFavoritesState sto, sto) muts).1.favorites
        p.1) = true := by
  rw [List.all_eq_true]
  exact inv_run muts (initializeStore initFavoritesState sto, sto)
    (inv_initialize_empty sto)

theorem toggle_fst (st : FavoritesState) (sto : Storage) (sha : String)
    (data : Option FavoriteCommit) :
    (toggleFavorite st sto sha data).1 =
      if FavSet.has st.favorites sha = true then removeFavoriteState st sha
      else addFavoriteState st sha data := by
  unfold toggleFavorite
  by_cases hc : FavSet.has st.favorites sha = true
  · rw [if_pos hc, if_pos hc]
    rfl
  · rw [if_neg hc, if_neg hc]
    rfl

/-- Extensional equality of the favorites index: the two states answer every
membership query and every record lookup identically. -/
def indexEquiv (s t : FavoritesState) : Prop :=
  (∀ k, FavSet.has s.favorites k = FavSet.has t.favorites k) ∧
  (∀ k, FavMap.get? s.favoriteCommits k = FavMap.get? t.favoriteCommits k)

/-- C4 counterexample: toggling a favorited id twice with no record supplied
erases the previously cached record, so the index does not return to its
prior state. -/
theorem toggle_twice_counterexample :
    FavMap.get?
      ({ favorites := ["abc123"],
         favoriteCommits := [("abc123", sampleRecord)],
         initialized := true } : FavoritesState).favoriteCommits "abc123" =
      some sampleRecord ∧
    FavMap.get?
      ((toggleFavorite
          (toggleFavorite
            { favorites := ["abc123"],
              favoriteCommits := [("abc123", sampleRecord)],
              initialized := true } emptyStorage "abc123" none).1
          (toggleFavorite
            { favorites := ["abc123"],
              favoriteCommits := [("abc123", sampleRecord)],
              initialized := true } emptyStorage "abc123" none).2
          "abc123" none).1).favoriteCommits "abc123" = none := by
  decide

/-- C4 amended: calling `toggleFavorite` twice in a row with the same id and
record returns the index (membership and record lookups) to exactly its
state before the first call, provided the supplied record agrees with the
index: an unfavorited id must have no cached record, and a favorited id must
have exactly the supplied record cached. -/
theorem toggle_toggle_restores (st : FavoritesState) (sto : Storage)
    (sha : String) (data : Option FavoriteCommit)
    (h1 : FavSet.has st.favorites sha = false →
      FavMap.get? st.favoriteCommits sha = none)
    (h2 : FavSet.has st.favorites sha = true →
      FavMap.get? st.favoriteCommits sha = data) :
    indexEquiv
      (toggleFavorite (toggleFavorite st sto sha data).1
        (toggleFavorite st sto sha data).2 sha data).1 st := by
  rw [toggle_fst, toggle_fst]
  by_cases hc : FavSet.has st.favorites sha = true
  · rw [if_pos hc]
    have hdel : FavSet.has (removeFavoriteState st sha).favorites sha = false := by
      show FavSet.has (FavSet.del st.favorites sha) sha = false
      rw [FavSet.has_del]
      simp
    rw [if_neg (by rw [hdel]; exact Bool.false_ne_true)]
    constructor
    · intro k
      show FavSet.has (FavSet.add (FavSet.del st.favorites sha) sha) k = _
      rw [FavSet.has_add, FavSet.has_del]
      by_cases hk : k = sha
      · subst hk
        simp [hc]
      · simp [hk]
    · intro k
      have hrec := h2 hc
      cases data with
      | none =>
          show FavMap.get? (FavMap.del st.favoriteCommits sha) k = _
          rw [FavMap.get?_del]
          by_cases hk : k = sha
          · subst hk
            simp [hrec]
          · simp [hk]
      | some c =>
          show FavMap.get?
            (FavMap.set (FavMap.del st.favoriteCommits sha) sha c) k = _
          rw [FavMap.get?_set, FavMap.get?_del]
          by_cases hk : k = sha
          · subst hk
            simp [hrec]
          · simp [hk]
  · rw [if_neg hc]
    have hcf : FavSet.has st.favorites sha = false := Bool.eq_false_iff.mpr hc
    have hadd : FavSet.has (addFavoriteState st sha data).favorites sha = true := by
      show FavSet.has (FavSet.add st.favorites sha) sha = true
      rw [FavSet.has_add]
      simp
    rw [if_pos hadd]
    constructor
    · intro k
      show FavSet.has (FavSet.del (FavSet.add st.favorites sha) sha) k = _
      rw [FavSet.has_del, FavSet.has_add]
      by_cases hk : k = sha
      · subst hk
        simp [hcf]
      · simp [hk]
    · intro k
      have hrec := h1 hcf
      cases data with
      | none =>
          show FavMap.get? (FavMap.del st.favoriteCommits sha) k = _
          rw [FavMap.get?_del]
          by_cases hk : k = sha
          · subst hk
            simp [hrec]
          · simp [hk]
      | some c =>
          show FavMap.get?
            (FavMap.del (FavMap.set st.favoriteCommits sha c) sha) k = _
          rw [FavMap.get?_del, FavMap.get?_set]
          by_cases hk : k = sha
          · subst hk
            simp [hrec]
          · simp [hk]

theorem toggle_toggle_restores_witness :
    indexEquiv
      (toggleFavorite
        (toggleFavorite
          { favorites := ["abc123"],
            favoriteCommits := [("abc123", sampleRecord)],
            initialized := true } emptyStorage "abc123" (some sampleRecord)).1
        (toggleFavorite
          { favorites := ["abc123"],
            favoriteCommits := [("abc123", sampleRecord)],
            initialized := true } emptyStorage "abc123" (some sampleRecord)).2
        "abc123" (some sampleRecord)).1
      { favorites := ["abc123"],
        favoriteCommits := [("abc123", sampleRecord)],
        initialized := true } :=
  toggle_toggle_restores
    { favorites := ["abc123"],
      favoriteCommits := [("abc123", sampleRecord)],
      initialized := true } emptyStorage "abc123" (some sampleRecord)
    (by decide) (by decide)

/-- C5: with only a legacy id-list in storage, initialization reproduces the
legacy list exactly as the ids, leaves the record list empty, and a
subsequent `addFavorite` with a record makes that record appear among the
listed records. -/
theorem legacy_migration (getTime : String → Int) (ids : List String)
    (sto : Storage) (hnd : ids.Nodup) (hav : sto.available = true)
    (hv2 : sto.v2 = Slot.absent) (hv1 : sto.v1 = Slot.parsed ids) :
    getAllFavorites (initializeStore initFavoritesState sto) = ids ∧
    getAllFavoriteCommits getTime (initializeStore initFavoritesState sto) = [] ∧
    ∀ i r, i ∈ ids →
      r ∈ getAllFavoriteCommits getTime
        (addFavorite (initializeStore initFavoritesState sto) sto i (some r)).1 := by
  obtain ⟨av, s2, s1⟩ := sto
  simp only [Storage.available] at hav
  simp only [Storage.v2] at hv2
  simp only [Storage.v1] at hv1
  subst hav
  subst hv2
  subst hv1
  have hini : initializeStore initFavoritesState
      { available := true, v2 := Slot.absent, v1 := Slot.parsed ids } =
      { favorites := newSet ids, favoriteCommits := [], initialized := true } := rfl
  rw [hini]
  refine ⟨?_, ?_, ?_⟩
  · show newSet ids = ids
    exact newSet_eq_of_nodup hnd
  · rfl
  · intro i r hi
    show r ∈ getAllFavoriteCommits getTime
      (addFavoriteState
        { favorites := newSet ids, favoriteCommits := [], initialized := true }
        i (some r))
    show r ∈ List.insertionSort _ (FavMap.values (FavMap.set [] i r))
    show r ∈ [r]
    exact List.mem_singleton_self r

theorem legacy_migration_witness :
    getAllFavorites
        (initializeStore initFavoritesState
          { available := true, v2 := Slot.absent,
            v1 := Slot.parsed ["abc123"] }) = ["abc123"] ∧
    getAllFavoriteCommits (fun s => (s.length : Int))
        (initializeStore initFavoritesState
          { available := true, v2 := Slot.absent,
            v1 := Slot.parsed ["abc123"] }) = [] ∧
    ∀ i r, i ∈ ["abc123"] →
      r ∈ getAllFavoriteCommits (fun s => (s.length : Int))
        (addFavorite
          (initializeStore initFavoritesState
            { available := true, v2 := Slot.absent,
              v1 := Slot.parsed ["abc123"] })
          { available := true, v2 := Slot.absent,
            v1 := Slot.parsed ["abc123"] } i (some r)).1 :=
  legacy_migration (fun s => (s.length : Int)) ["abc123"]
    { available := true, v2 := Slot.absent, v1 := Slot.parsed ["abc123"] }
    (by decide) rfl rfl rfl

/-- C7: when the map holds exactly three records whose dates have strictly
increasing times T1 < T2 < T3, `getAllFavoriteCommits` lists them newest
first: T3, T2, T1. -/
theorem records_sorted_by_date_descending (getTime : String → Int)
    (st : FavoritesState) (r1 r2 r3 : FavoriteCommit)
    (hperm : (FavMap.values st.favoriteCommits).Perm [r1, r2, r3])
    (h12 : getTime r1.date < getTime r2.date)
    (h23 : getTime r2.date < getTime r3.date) :
    getAllFavoriteCommits getTime st = [r3, r2, r1] := by
  unfold getAllFavoriteCommits
  haveI htot : IsTotal FavoriteCommit
      (fun a b => sortByDateDescending getTime a b ≤ 0) :=
    ⟨fun a b => by unfold sortByDateDescending; omega⟩
  haveI htrans : IsTrans FavoriteCommit
      (fun a b => sortByDateDescending getTime a b ≤ 0) :=
    ⟨fun a b c hab hbc => by
      unfold sortByDateDescending at hab hbc ⊢
      omega⟩
  have hp : (List.insertionSort
      (fun a b => sortByDateDescending getTime a b ≤ 0)
      (FavMap.values st.favoriteCommits)).Perm [r1, r2, r3] :=
    (List.perm_insertionSort _ _).trans hperm
  have hs : List.Sorted (fun a b => sortByDateDescending getTime a b ≤ 0)
      (List.insertionSort (fun a b => sortByDateDescending getTime a b ≤ 0)
        (FavMap.values st.favoriteCommits)) :=
    List.sorted_insertionSort _ _
  have hne12 : r1 ≠ r2 := by
    intro h
    rw [h] at h12
    exact lt_irrefl _ h12
  have hne13 : r1 ≠ r3 := by
    intro h
    rw [h] at h12
    exact lt_irrefl _ (h12.trans h23)
  have hne23 : r2 ≠ r3 := by
    intro h
    rw [h] at h23
    exact lt_irrefl _ h23
  have hndtgt : List.Nodup [r1, r2, r3] := by
    simp [hne12, hne13, hne23]
  have hndout : (List.insertionSort
      (fun a b => sortByDateDescending getTime a b ≤ 0)
      (FavMap.values st.favoriteCommits)).Nodup :=
    hp.nodup_iff.mpr hndtgt
  have hstrict : List.Pairwise
      (fun a b : FavoriteCommit => getTime b.date < getTime a.date)
      (List.insertionSort (fun a b => sortByDateDescending getTime a b ≤ 0)
        (FavMap.values st.favoriteCommits)) := by
    refine List.Pairwise.imp_of_mem ?_ (List.Pairwise.and hs hndout)
    intro a b ha hb hab
    obtain ⟨hrel, hne⟩ := hab
    have ha' : a ∈ [r1, r2, r3] := hp.mem_iff.mp ha
    have hb' : b ∈ [r1, r2, r3] := hp.mem_iff.mp hb
    unfold sortByDateDescending at hrel
    simp only [List.mem_cons, List.mem_singleton, List.not_mem_nil,
      or_false] at ha' hb'
    rcases ha' with rfl | rfl | rfl <;> rcases hb' with rfl | rfl | rfl <;>
      first
        | exact absurd rfl hne
        | omega
  have hsorted_tgt : List.Pairwise
      (fun a b : FavoriteCommit => getTime b.date < getTime a.date)
      [r3, r2, r1] := by
    refine List.Pairwise.cons ?_
      (List.Pairwise.cons ?_ (List.Pairwise.cons ?_ List.Pairwise.nil))
    · intro a ha
      rcases List.mem_cons.mp ha with rfl | ha
      · omega
      rcases List.mem_cons.mp ha with rfl | ha
      · omega
      · cases ha
    · intro a ha
      rcases List.mem_cons.mp ha with rfl | ha
      · omega
      · cases ha
    · intro a ha
      cases ha
  haveI : IsAntisymm FavoriteCommit
      (fun a b : FavoriteCommit => getTime b.date < getTime a.date) :=
    ⟨fun a b hab hba => (lt_asymm hab hba).elim⟩
  have hp2 : (List.insertionSort
      (fun a b => sortByDateDescending getTime a b ≤ 0)
      (FavMap.values st.favoriteCommits)).Perm [r3, r2, r1] :=
    hp.trans (List.reverse_perm [r1, r2, r3]).symm
  exact List.eq_of_perm_of_sorted hp2 hstrict hsorted_tgt

/-- A concrete record whose date has the earliest time under the
string-length time function used by witnesses. -/
def recT1 : FavoriteCommit :=
  { sha := "aaa1", username := "octo", repositoryName := "Hello-World",
    message := "first", date := "1", authorName := "Octo Cat",
    authorAvatar := none, html_url := "https://example/commit/aaa1" }

/-- A concrete record with the middle time. -/
def recT2 : FavoriteCommit :=
  { sha := "bbb2", username := "octo", repositoryName := "Hello-World",
    message := "second", date := "22", authorName := "Octo Cat",
    authorAvatar := none, html_url := "https://example/commit/bbb2" }

/-- A concrete record with the latest time. -/
def recT3 : FavoriteCommit :=
  { sha := "ccc3", username := "octo", repositoryName := "Hello-World",
    message := "third", date := "333", authorName := "Octo Cat",
    authorAvatar := none, html_url := "https://example/commit/ccc3" }

theorem records_sorted_by_date_descending_witness :
    getAllFavoriteCommits (fun s => (s.length : Int))
      { favorites := ["aaa1", "bbb2", "ccc3"],
        favoriteCommits := [("aaa1", recT1), ("bbb2", recT2), ("ccc3", recT3)],
        initialized := true } = [recT3, recT2, recT1] :=
  records_sorted_by_date_descending (fun s => (s.length : Int))
    { favorites := ["aaa1", "bbb2", "ccc3"],
      favoriteCommits := [("aaa1", recT1), ("bbb2", recT2), ("ccc3", recT3)],
      initialized := true } recT1 recT2 recT3
    (by decide) (by decide) (by decide)
